import Mathlib

/-!
# Verification of the concat demuxer (libavformat/concatdec.c)

A shallow embedding of the concat demuxer core: the segment table, the
segment lifecycle manager (open_file / open_next_file), the packet pump
(concat_read_packet) with its bounded retry loop, the header backfill pass
(the start-time propagation loop of concat_read_header), and the seek
engine (real_seek binary search, try_seek, concat_seek with rollback).

External collaborators (the per-segment reader opened by
avformat_open_input + avformat_find_stream_info, and its
av_read_frame / avformat_seek_file entry points) are modelled as data:
a Reader carries its start time, duration, stream time bases, the sequence
of read outcomes it will deliver, and a function giving the result of an
in-segment seek.  Opening segment i is an oracle
env : Nat -> Except Int Reader covering both the open and the stream-info
analysis: on error the C code closes the fresh context and returns the
error with no state change.

Machine int64 values are modelled as unbounded Int (signed overflow is
undefined behaviour in the C source and is not exercised by any claim);
AV_NOPTS_VALUE is the concrete INT64_MIN sentinel, exactly as in C.
C while-loops are modelled with an explicit fuel parameter; theorems
carry a fuel-sufficiency hypothesis.  Calls into the external reader and
reader closes are recorded in an event trace so that resource claims
(who was opened, closed, read) are statable.
-/

namespace Concatdec

/-- INT64_MIN, the AV_NOPTS_VALUE sentinel from libavutil/avutil.h. -/
def AV_NOPTS_VALUE : Int := -9223372036854775808

def INT64_MIN : Int := -9223372036854775808

def INT64_MAX : Int := 9223372036854775807

/-- AVERROR_EOF = FFERRTAG( 'E','O','F',' ') from libavutil/error.h. -/
def AVERROR_EOF : Int := -541478725

/-- AVERROR(EPERM): unsafe file name. -/
def AVERROR_EPERM : Int := -1

/-- AVERROR(ENOMEM). -/
def AVERROR_ENOMEM : Int := -12

/-- AVERROR(EIO): used by try_seek for a bad stream index. -/
def AVERROR_EIO : Int := -5

/-- AVERROR(ESPIPE): concat_seek on a non-seekable table. -/
def AVERROR_ESPIPE : Int := -29

/-- AVERROR(ENOSYS): concat_seek with byte/frame flags. -/
def AVERROR_ENOSYS : Int := -38

/-- AVERROR(EINVAL): real_seek with an out-of-range stream index. -/
def AVERROR_EINVAL : Int := -22

/-- AVERROR_INVALIDDATA = FFERRTAG( 'I','N','D','A'). -/
def AVERROR_INVALIDDATA : Int := -1094995529

/-- Model artifact: returned by a modelled loop when its fuel runs out.
Distinct from every AVERROR code; theorems always carry enough fuel. -/
def FUEL_EXHAUSTED : Int := -999999999

def AVSEEK_FLAG_BYTE : Nat := 2

def AVSEEK_FLAG_FRAME : Nat := 8

/-- AV_TIME_BASE_Q = (AVRational){1, AV_TIME_BASE}: (num, den). -/
def AV_TIME_BASE_Q : Int × Int := (1, 1000000)

/-- The spec taxonomy class NotSupported covers both rejection codes of
concat_seek: ESPIPE (non-seekable table) and ENOSYS (byte/frame flags). -/
def isNotSupported (e : Int) : Prop :=
  e = AVERROR_ESPIPE ∨ e = AVERROR_ENOSYS

instance (e : Int) : Decidable (isNotSupported e) := by
  unfold isNotSupported; infer_instance

/-! ## av_rescale_rnd / av_rescale_q (libavutil/mathops)

`av_rescale_rnd a b c rnd` computes a*b/c with the requested rounding.
The C implementation splits on the sign of `a` and, for a >= 0, computes
`(a*b + r) / c` with truncating division, where r = c/2 for
AV_ROUND_NEAR_INF, r = c-1 for AV_ROUND_UP and r = 0 for AV_ROUND_DOWN;
for a < 0 it returns the negation of the rescale of -a with UP and DOWN
exchanged.  b and c are positive products of time-base components. -/

/-- av_rescale_rnd with AV_ROUND_NEAR_INF (round to nearest, halfway away
from zero), the rounding used by av_rescale_q. -/
def av_rescale_rnd_near (a b c : Int) : Int :=
  if a < 0 then -(Int.tdiv (-a * b + Int.tdiv c 2) c)
  else Int.tdiv (a * b + Int.tdiv c 2) c

/-- av_rescale_rnd with AV_ROUND_UP (toward +infinity). -/
def av_rescale_rnd_up (a b c : Int) : Int :=
  if a < 0 then -(Int.tdiv (-a * b) c)
  else Int.tdiv (a * b + c - 1) c

/-- av_rescale_rnd with AV_ROUND_DOWN (toward -infinity). -/
def av_rescale_rnd_down (a b c : Int) : Int :=
  if a < 0 then -(Int.tdiv (-a * b + c - 1) c)
  else Int.tdiv (a * b) c

/-- av_rescale_q a bq cq = av_rescale_rnd a (bq.num * cq.den)
(bq.den * cq.num) AV_ROUND_NEAR_INF. -/
def av_rescale_q (a : Int) (bq cq : Int × Int) : Int :=
  av_rescale_rnd_near a (bq.1 * cq.2) (bq.2 * cq.1)

/-- av_rescale_q_rnd with AV_ROUND_UP | AV_ROUND_PASS_MINMAX: INT64_MIN
and INT64_MAX pass through unchanged. -/
def av_rescale_q_up_minmax (a : Int) (bq cq : Int × Int) : Int :=
  if a = INT64_MIN ∨ a = INT64_MAX then a
  else av_rescale_rnd_up a (bq.1 * cq.2) (bq.2 * cq.1)

/-- av_rescale_q_rnd with AV_ROUND_DOWN | AV_ROUND_PASS_MINMAX. -/
def av_rescale_q_down_minmax (a : Int) (bq cq : Int × Int) : Int :=
  if a = INT64_MIN ∨ a = INT64_MAX then a
  else av_rescale_rnd_down a (bq.1 * cq.2) (bq.2 * cq.1)

/-- rescale_interval (concatdec.c lines 380-388): ts rescaled exactly
(NEAR_INF), min rounded up, max rounded down, both passing min/max
sentinels through.  Returns (min_ts, ts, max_ts). -/
def rescale_interval (tb_in tb_out : Int × Int) (min_ts ts max_ts : Int) :
    Int × Int × Int :=
  (av_rescale_q_up_minmax min_ts tb_in tb_out,
   av_rescale_q ts tb_in tb_out,
   av_rescale_q_down_minmax max_ts tb_in tb_out)

/-! ## Data model -/

/-- One demuxed packet as far as the concat layer looks at it:
pts, dts (AV_NOPTS_VALUE-coded Int) and the stream index. -/
structure Packet where
  pts : Int
  dts : Int
  stream_index : Nat
deriving DecidableEq

/-- The external per-segment reader (an opened AVFormatContext).
`reads` is the sequence of av_read_frame outcomes it will deliver
(a packet or a negative error); once exhausted it reports AVERROR_EOF
forever.  `seek_fn` gives the result of avformat_seek_file on this reader
for the (already translated) min/ts/max/flags arguments. -/
structure Reader where
  id : Nat
  start_time : Int
  duration : Int
  streams : List (Int × Int)
  reads : List (Except Int Packet)
  seek_fn : Int → Int → Int → Nat → Int

/-- ConcatFile (concatdec.c lines 29-33). -/
structure ConcatFile where
  url : String
  start_time : Int
  duration : Int
deriving DecidableEq

def dummyFile : ConcatFile := ⟨"", 0, 0⟩

/-- ConcatContext (concatdec.c lines 35-45), restricted to the fields the
core state machine reads or writes.  cur_file is the index of the
current file (the C code stores a pointer into `files`); avf is the
currently open reader (NULL modelled as none); error is the sticky
error (0 = clear); duration is the enclosing AVFormatContext duration
set by the header backfill pass. -/
structure ConcatContext where
  files : List ConcatFile
  cur_file : Nat
  avf : Option Reader
  seekable : Bool
  error : Int
  duration : Int

def ConcatContext.nb_files (cat : ConcatContext) : Nat := cat.files.length

def ConcatContext.fileAt (cat : ConcatContext) (i : Nat) : ConcatFile :=
  cat.files.getD i dummyFile

def ConcatContext.curFile (cat : ConcatContext) : ConcatFile :=
  cat.fileAt cat.cur_file

/-- Events recorded while stepping the state machine: an attempt to open
segment `fileno` (avformat_open_input), a close of the reader with the
given id (avformat_close_input), a read attempt (av_read_frame) on the
reader with the given id. -/
inductive Event where
  | openAttempt (fileno : Nat)
  | close (rid : Nat)
  | readAttempt (rid : Nat)
deriving DecidableEq

/-- Result of a state-machine step: return code, new context, trace. -/
structure StepResult where
  ret : Int
  cat : ConcatContext
  events : List Event

/-- Result of concat_read_packet: return code, delivered packet (if the
return code is a success), new context, trace. -/
structure ReadResult where
  ret : Int
  pkt : Option Packet
  cat : ConcatContext
  events : List Event

/-- av_read_frame on the modelled reader: deliver the next queued
outcome, or AVERROR_EOF when exhausted. -/
def av_read_frame (r : Reader) : Int × Option Packet × Reader :=
  match r.reads with
  | [] => (AVERROR_EOF, none, r)
  | item :: rest =>
    match item with
    | Except.ok p => (0, some p, { r with reads := rest })
    | Except.error e => (e, none, { r with reads := rest })

/-! ## Segment lifecycle manager -/

/-- open_file (concatdec.c lines 130-185).  The oracle `env` covers
avformat_open_input plus avformat_find_stream_info on segment `fileno`
(on either failure the C code closes the fresh context and returns the
error having touched nothing else).  On success the previously active
reader (if any) is closed, the new reader and cur_file are installed,
and files[fileno].start_time, when still AV_NOPTS_VALUE, is backfilled
to 0 for fileno = 0 and to
files[fileno-1].start_time + files[fileno-1].duration otherwise. -/
def open_file (env : Nat → Except Int Reader) (cat : ConcatContext)
    (fileno : Nat) : StepResult :=
  match env fileno with
  | Except.error e => ⟨e, cat, [Event.openAttempt fileno]⟩
  | Except.ok new_avf =>
    let closeEvents : List Event :=
      match cat.avf with
      | some r => [Event.close r.id]
      | none => []
    let f := cat.fileAt fileno
    let files :=
      if f.start_time = AV_NOPTS_VALUE then
        cat.files.set fileno
          { f with start_time :=
              if fileno = 0 then 0
              else (cat.fileAt (fileno - 1)).start_time +
                   (cat.fileAt (fileno - 1)).duration }
      else cat.files
    ⟨0, { cat with files := files, avf := some new_avf, cur_file := fileno },
     Event.openAttempt fileno :: closeEvents⟩

/-- Duration of the currently open reader, as read by open_next_file via
cat->avf->duration.  The C code only reaches this dereference with a
reader installed; none is unreachable on that path. -/
def readerDuration : Option Reader → Int
  | some r => r.duration
  | none => AV_NOPTS_VALUE

/-- open_next_file (concatdec.c lines 324-335): backfill the current
file's duration from the reader if still unknown, then either report
AVERROR_EOF past the last file or open_file the successor. -/
def open_next_file (env : Nat → Except Int Reader) (cat : ConcatContext) :
    StepResult :=
  let fileno := cat.cur_file
  let cat1 :=
    if (cat.fileAt fileno).duration = AV_NOPTS_VALUE then
      let f1 := { cat.fileAt fileno with
                  duration := readerDuration cat.avf }
      { cat with files := cat.files.set fileno f1 }
    else cat
  if fileno + 1 ≥ cat1.nb_files then ⟨AVERROR_EOF, cat1, []⟩
  else open_file env cat1 (fileno + 1)

/-! ## Packet pump -/

/-- CONCAT_MAX_OPEN_TRY (concatdec.c line 337). -/
def CONCAT_MAX_OPEN_TRY : Nat := 3

/-- The while(1) loop of concat_read_packet (concatdec.c lines 350-365),
with explicit fuel.  Reads a frame from the current reader; on anything
other than AVERROR_EOF the loop breaks with that result.  On EOF it
calls open_next_file; a failure bumps try_counter and, past
CONCAT_MAX_OPEN_TRY, records the failure in cat->error and exits with
AVERROR_EOF; otherwise (failure within the bound, or success) the loop
continues. -/
def readLoop (env : Nat → Except Int Reader) :
    Nat → ConcatContext → Nat → ReadResult
  | 0, cat, _ => ⟨FUEL_EXHAUSTED, none, cat, []⟩
  | fuel + 1, cat, try_counter =>
    match cat.avf with
    | none => ⟨FUEL_EXHAUSTED, none, cat, []⟩
    | some r =>
      let (ret, pkt, r1) := av_read_frame r
      let cat1 := { cat with avf := some r1 }
      let ev0 := [Event.readAttempt r.id]
      if ret ≠ AVERROR_EOF then ⟨ret, pkt, cat1, ev0⟩
      else
        let step := open_next_file env cat1
        if step.ret < 0 then
          let tc := try_counter + 1
          if tc > CONCAT_MAX_OPEN_TRY then
            ⟨AVERROR_EOF, none, { step.cat with error := step.ret },
             ev0 ++ step.events⟩
          else
            let rest := readLoop env fuel step.cat tc
            ⟨rest.ret, rest.pkt, rest.cat, ev0 ++ step.events ++ rest.events⟩
        else
          let rest := readLoop env fuel step.cat try_counter
          ⟨rest.ret, rest.pkt, rest.cat, ev0 ++ step.events ++ rest.events⟩

/-- Time base of stream `i` of the reader (cat->avf->streams[i]->time_base).
Out-of-range access is undefined in C and unreachable for packets the
reader itself delivered; the model returns (1,1). -/
def streamTb (r : Reader) (i : Nat) : Int × Int := r.streams.getD i (1, 1)

/-- The timestamp delta applied by concat_read_packet (lines 369-371):
cur_file->start_time - avf->start_time, rescaled from AV_TIME_BASE_Q to
the packet's stream time base. -/
def packetDelta (cat : ConcatContext) (r : Reader) (si : Nat) : Int :=
  av_rescale_q (cat.curFile.start_time - r.start_time)
    AV_TIME_BASE_Q (streamTb r si)

/-- concat_read_packet (concatdec.c lines 338-378). -/
def concat_read_packet (env : Nat → Except Int Reader) (fuel : Nat)
    (cat : ConcatContext) : ReadResult :=
  if cat.error ≠ 0 then ⟨cat.error, none, cat, []⟩
  else
    let res := readLoop env fuel cat 0
    if res.ret < 0 then ⟨res.ret, res.pkt, res.cat, res.events⟩
    else
      match res.pkt, res.cat.avf with
      | some p, some r =>
        let delta := packetDelta res.cat r p.stream_index
        let p1 :=
          { p with
            pts := if p.pts ≠ AV_NOPTS_VALUE then p.pts + delta else p.pts,
            dts := if p.dts ≠ AV_NOPTS_VALUE then p.dts + delta else p.dts }
        ⟨res.ret, some p1, res.cat, res.events⟩
      | _, _ => ⟨res.ret, res.pkt, res.cat, res.events⟩

/-! ## Header backfill pass -/

/-- The start-time propagation loop of concat_read_header (concatdec.c
lines 288-296), written as a fold over the file list with the running
`time` accumulator.  Returns the updated list, the final accumulator,
and whether the loop ran to completion (i == cat->nb_files) rather than
breaking at a file with unknown duration. -/
def backfillLoop : List ConcatFile → Int → List ConcatFile × Int × Bool
  | [], time => ([], time, true)
  | f :: rest, time =>
    let f1 := if f.start_time = AV_NOPTS_VALUE then
                { f with start_time := time } else f
    let time1 := if f.start_time = AV_NOPTS_VALUE then time
                 else f.start_time
    if f1.duration = AV_NOPTS_VALUE then (f1 :: rest, time1, false)
    else
      let r := backfillLoop rest (time1 + f1.duration)
      (f1 :: r.1, r.2.1, r.2.2)

/-- The backfill pass plus the seekable/duration assignment of
concat_read_header (concatdec.c lines 288-301): when the loop covered
every file, the enclosing context duration becomes the accumulated time
and the table is marked seekable. -/
def header_backfill (cat : ConcatContext) : ConcatContext :=
  let r := backfillLoop cat.files 0
  if r.2.2 then
    { cat with files := r.1, duration := r.2.1, seekable := true }
  else { cat with files := r.1 }

/-! ## Seek engine -/

/-- The binary-search loop of real_seek (concatdec.c lines 421-429) with
explicit fuel; fuel >= right - left always suffices.  Maintains
[left, right), compares the midpoint start_time to ts, and returns left
when the window has collapsed. -/
def bsearchLoop (files : List ConcatFile) (ts : Int) :
    Nat → Nat → Nat → Nat
  | 0, left, _ => left
  | fuel + 1, left, right =>
    if right - left > 1 then
      let mid := (left + right) / 2
      if ts < (files.getD mid dummyFile).start_time then
        bsearchLoop files ts fuel left mid
      else bsearchLoop files ts fuel mid right
    else left

/-- The segment-locate step of real_seek: binary search over the whole
table for the greatest index whose start_time is <= ts. -/
def locateSegment (files : List ConcatFile) (ts : Int) : Nat :=
  bsearchLoop files ts files.length 0 files.length

/-- try_seek (concatdec.c lines 390-406): translate the window into the
current segment's local time (t0 = cur_file->start_time -
avf->start_time), passing infinite bounds through, rescale into the
requested stream's time base when a specific stream was asked for, and
issue the in-segment seek on the reader.  stream is an Int because the
C API uses -1 for "any stream".  Does not mutate the context. -/
def try_seek (cat : ConcatContext) (stream : Int)
    (min_ts ts max_ts : Int) (flags : Nat) : Int :=
  match cat.avf with
  | none => FUEL_EXHAUSTED
  | some r =>
    let t0 := cat.curFile.start_time - r.start_time
    let ts1 := ts - t0
    let min1 := if min_ts = INT64_MIN then INT64_MIN else min_ts - t0
    let max1 := if max_ts = INT64_MAX then INT64_MAX else max_ts - t0
    if stream ≥ 0 then
      if stream ≥ (r.streams.length : Int) then AVERROR_EIO
      else
        let tb := streamTb r stream.toNat
        let w := rescale_interval AV_TIME_BASE_Q tb min1 ts1 max1
        r.seek_fn w.1 w.2.1 w.2.2 flags
    else r.seek_fn min1 ts1 max1 flags

/-- Time base of virtual output stream `i` (avf->streams[i]->time_base of
the enclosing context); the virtual stream table is copied from the
first segment at header time. -/
structure VirtualStreams where
  tbs : List (Int × Int)

/-- real_seek (concatdec.c lines 408-443): optional rescale of the window
from the requested stream's time base into AV_TIME_BASE_Q, binary
search, open of the located segment, in-segment seek, and the single
one-segment-ahead fallback when the in-segment seek fails, the located
segment is not the last and the next segment's start_time is below the
max bound.  `vs` is the enclosing context's stream table. -/
def real_seek (env : Nat → Except Int Reader) (vs : VirtualStreams)
    (cat : ConcatContext) (stream : Int)
    (min_ts ts max_ts : Int) (flags : Nat) : StepResult :=
  if stream ≥ 0 ∧ stream ≥ (vs.tbs.length : Int) then
    ⟨AVERROR_EINVAL, cat, []⟩
  else
    let w :=
      if stream ≥ 0 then
        rescale_interval (vs.tbs.getD stream.toNat (1, 1)) AV_TIME_BASE_Q
          min_ts ts max_ts
      else (min_ts, ts, max_ts)
    let min1 := w.1
    let ts1 := w.2.1
    let max1 := w.2.2
    let left := locateSegment cat.files ts1
    let o1 := open_file env cat left
    if o1.ret < 0 then o1
    else
      let r1 := try_seek o1.cat stream min1 ts1 max1 flags
      if r1 < 0 ∧ left < o1.cat.nb_files - 1 ∧
         (o1.cat.fileAt (left + 1)).start_time < max1 then
        let o2 := open_file env o1.cat (left + 1)
        if o2.ret < 0 then ⟨o2.ret, o2.cat, o1.events ++ o2.events⟩
        else
          let r2 := try_seek o2.cat stream min1 ts1 max1 flags
          ⟨r2, o2.cat, o1.events ++ o2.events⟩
      else ⟨r1, o1.cat, o1.events⟩

/-- concat_seek (concatdec.c lines 445-470): clear the sticky error,
reject non-seekable tables (ESPIPE) and byte/frame flags (ENOSYS), then
run real_seek against a context whose avf was nulled out; on failure
close whatever reader real_seek left open and restore the saved
cur_file/avf, on success close the saved reader. -/
def concat_seek (env : Nat → Except Int Reader) (vs : VirtualStreams)
    (cat : ConcatContext) (stream : Int)
    (min_ts ts max_ts : Int) (flags : Nat) : StepResult :=
  let cur_file_saved := cat.cur_file
  let cur_avf_saved := cat.avf
  let cat0 := { cat with error := 0 }
  if cat0.seekable = false then ⟨AVERROR_ESPIPE, cat0, []⟩
  else if (flags &&& (AVSEEK_FLAG_BYTE ||| AVSEEK_FLAG_FRAME)) ≠ 0 then
    ⟨AVERROR_ENOSYS, cat0, []⟩
  else
    let cat1 := { cat0 with avf := none }
    let rs := real_seek env vs cat1 stream min_ts ts max_ts flags
    if rs.ret < 0 then
      let closeEvents : List Event :=
        match rs.cat.avf with
        | some r => [Event.close r.id]
        | none => []
      ⟨rs.ret,
       { rs.cat with avf := cur_avf_saved, cur_file := cur_file_saved },
       rs.events ++ closeEvents⟩
    else
      let closeEvents : List Event :=
        match cur_avf_saved with
        | some r => [Event.close r.id]
        | none => []
      ⟨rs.ret, rs.cat, rs.events ++ closeEvents⟩

/-! ## Concrete scenario data (used by witnesses and counterexamples) -/

/-- Number of openAttempt events in a trace. -/
def countOpens (evs : List Event) : Nat :=
  (evs.filter fun e =>
    match e with
    | Event.openAttempt _ => true
    | _ => false).length

/-- Oracle under which every segment open fails with AVERROR(EIO). -/
def envFail : Nat → Except Int Reader := fun _ => Except.error (-5)

/-- A reader that is at end of stream from the start. -/
def readerEmpty : Reader := ⟨100, 0, 10, [(1, 90000)], [], fun _ _ _ _ => 0⟩

/-- Two-file table, file 0 active and exhausted, file 1 still unresolved:
the sequential-advance / retry scenario. -/
def catTwoFiles : ConcatContext :=
  ⟨[⟨"seg0", 0, 10⟩, ⟨"seg1", AV_NOPTS_VALUE, AV_NOPTS_VALUE⟩], 0,
   some readerEmpty, false, 0, 0⟩

/-- A one-stream virtual stream table in microsecond time base. -/
def vsMicro : VirtualStreams := ⟨[(1, 1000000)]⟩

/-- A reader holding one packet, with a start time of 2. -/
def readerOnePacket : Reader :=
  ⟨7, 2, 10, [(1, 1000000)], [Except.ok ⟨100, AV_NOPTS_VALUE, 0⟩],
   fun _ _ _ _ => 0⟩

/-- Single-file table whose file starts at 50 on the virtual timeline. -/
def catOnePacket : ConcatContext :=
  ⟨[⟨"seg0", 50, 10⟩], 0, some readerOnePacket, true, 0, 0⟩

/-- A reader whose in-segment seek always succeeds. -/
def readerSeekOk (n : Nat) : Reader :=
  ⟨n, 0, 10, [(1, 1000000)], [], fun _ _ _ _ => 0⟩

/-- A reader whose in-segment seek always fails (rejects edge seeks). -/
def readerSeekFail (n : Nat) : Reader :=
  ⟨n, 0, 10, [(1, 1000000)], [], fun _ _ _ _ => AVERROR_EIO⟩

/-- Oracle for the seek scenarios: segment 0 opens as a reader that
rejects in-segment seeks, segment 1 opens as one that accepts them. -/
def envSeek : Nat → Except Int Reader := fun i =>
  if i = 0 then Except.ok (readerSeekFail 20)
  else if i = 1 then Except.ok (readerSeekOk 21)
  else Except.error (-5)

/-- Seekable two-file table with known start times 0 and 10. -/
def catSeekable : ConcatContext :=
  ⟨[⟨"seg0", 0, 10⟩, ⟨"seg1", 10, 5⟩], 0, some (readerSeekOk 99), true, 0, 15⟩

/-- Freshly built table (all start times unset), all durations known. -/
def catBuildKnown : ConcatContext :=
  ⟨[⟨"seg0", AV_NOPTS_VALUE, 10⟩, ⟨"seg1", AV_NOPTS_VALUE, 5⟩], 0, none,
   false, 0, 0⟩

/-- Freshly built table with an unknown duration at index 1. -/
def catBuildUnknown : ConcatContext :=
  ⟨[⟨"seg0", AV_NOPTS_VALUE, 10⟩, ⟨"seg1", AV_NOPTS_VALUE, AV_NOPTS_VALUE⟩,
    ⟨"seg2", AV_NOPTS_VALUE, 7⟩], 0, none, false, 0, 0⟩

/-! ## Helper lemmas -/

lemma filesGetD_set_ne (l : List ConcatFile) (i j : Nat) (f : ConcatFile)
    (h : i ≠ j) : (l.set i f).getD j dummyFile = l.getD j dummyFile := by
  simp [List.getD_eq_getElem?_getD, List.getElem?_set_ne h]

lemma filesGetD_set_self (l : List ConcatFile) (i : Nat) (f : ConcatFile)
    (h : i < l.length) : (l.set i f).getD i dummyFile = f := by
  simp [List.getD_eq_getElem?_getD, List.getElem?_set_self, h]

/-- An index whose descriptor has a start_time other than the default 0
of dummyFile is a real index of the table. -/
lemma fileAt_lt_of_start_nopts (cat : ConcatContext) (i : Nat)
    (h : (cat.fileAt i).start_time = AV_NOPTS_VALUE) :
    i < cat.files.length := by
  by_contra hge
  push_neg at hge
  unfold ConcatContext.fileAt at h
  rw [List.getD_eq_default _ _ hge] at h
  simp [dummyFile, AV_NOPTS_VALUE] at h

lemma open_file_error_eq (env : Nat → Except Int Reader)
    (cat : ConcatContext) (i : Nat) :
    (open_file env cat i).cat.error = cat.error := by
  unfold open_file
  cases env i <;> simp

lemma open_file_seekable_eq (env : Nat → Except Int Reader)
    (cat : ConcatContext) (i : Nat) :
    (open_file env cat i).cat.seekable = cat.seekable := by
  unfold open_file
  cases env i <;> simp

lemma real_seek_error_eq (env : Nat → Except Int Reader)
    (vs : VirtualStreams) (cat : ConcatContext) (stream : Int)
    (mn ts mx : Int) (flags : Nat) :
    (real_seek env vs cat stream mn ts mx flags).cat.error = cat.error := by
  unfold real_seek
  split
  · rfl
  · split <;>
    · dsimp only
      split
      · exact open_file_error_eq ..
      · split
        · split <;> simp [open_file_error_eq]
        · simp [open_file_error_eq]

/-- Backfill over a table whose start times are all unset and whose
durations are all known: the loop completes, accumulates the durations
into the running time, and chains each start time from the previous
start time plus duration, beginning at the accumulator. -/
lemma backfillLoop_known (files : List ConcatFile) (t : Int)
    (hs : ∀ f ∈ files, f.start_time = AV_NOPTS_VALUE)
    (hd : ∀ f ∈ files, f.duration ≠ AV_NOPTS_VALUE) :
    (backfillLoop files t).2.2 = true ∧
    (backfillLoop files t).2.1 = t + (files.map ConcatFile.duration).sum ∧
    (backfillLoop files t).1.length = files.length ∧
    (∀ i, ((backfillLoop files t).1.getD i dummyFile).duration =
      (files.getD i dummyFile).duration) ∧
    (0 < files.length →
      ((backfillLoop files t).1.getD 0 dummyFile).start_time = t) ∧
    (∀ i, i + 1 < files.length →
      ((backfillLoop files t).1.getD (i + 1) dummyFile).start_time =
        ((backfillLoop files t).1.getD i dummyFile).start_time +
        ((backfillLoop files t).1.getD i dummyFile).duration) := by
  induction files generalizing t with
  | nil =>
    refine ⟨rfl, by simp [backfillLoop], rfl, ?_, ?_, ?_⟩
    · intro i; rfl
    · intro h; simp at h
    · intro i h; simp at h
  | cons f rest ih =>
    have hsf : f.start_time = AV_NOPTS_VALUE := hs f (by simp)
    have hdf : f.duration ≠ AV_NOPTS_VALUE := hd f (by simp)
    have hs1 : ∀ g ∈ rest, g.start_time = AV_NOPTS_VALUE :=
      fun g hg => hs g (by simp [hg])
    have hd1 : ∀ g ∈ rest, g.duration ≠ AV_NOPTS_VALUE :=
      fun g hg => hd g (by simp [hg])
    have hstep : backfillLoop (f :: rest) t =
        ((⟨f.url, t, f.duration⟩ : ConcatFile) ::
            (backfillLoop rest (t + f.duration)).1,
         (backfillLoop rest (t + f.duration)).2.1,
         (backfillLoop rest (t + f.duration)).2.2) := by
      show (let f1 := if f.start_time = AV_NOPTS_VALUE then
                        { f with start_time := t } else f
            let time1 := if f.start_time = AV_NOPTS_VALUE then t
                         else f.start_time
            if f1.duration = AV_NOPTS_VALUE then (f1 :: rest, time1, false)
            else
              let r := backfillLoop rest (time1 + f1.duration)
              (f1 :: r.1, r.2.1, r.2.2)) = _
      rw [if_pos hsf, if_pos hsf]
      dsimp only
      rw [if_neg hdf]
    obtain ⟨ih1, ih2, ih3, ih4, ih5, ih6⟩ := ih (t + f.duration) hs1 hd1
    rw [hstep]
    refine ⟨ih1, ?_, by simp [ih3], ?_, ?_, ?_⟩
    · rw [ih2]
      simp only [List.map_cons, List.sum_cons]
      ring
    · intro i
      cases i with
      | zero => rfl
      | succ j => simpa using ih4 j
    · intro _
      rfl
    · intro i hi
      cases i with
      | zero =>
        simp only [List.getD_cons_succ, List.getD_cons_zero]
        have h0 : 0 < rest.length := by simp at hi; omega
        rw [ih5 h0]
      | succ j =>
        simp only [List.getD_cons_succ]
        exact ih6 j (by simp at hi; omega)

/-- Backfill over a table containing a file with unknown duration at
index k: the loop reports incompleteness and leaves every descriptor
past index k untouched. -/
lemma backfillLoop_stops (files : List ConcatFile) (t : Int) (k : Nat)
    (hk : k < files.length)
    (hdk : (files.getD k dummyFile).duration = AV_NOPTS_VALUE) :
    (backfillLoop files t).2.2 = false ∧
    (∀ j, k < j → (backfillLoop files t).1.getD j dummyFile =
      files.getD j dummyFile) := by
  induction files generalizing t k with
  | nil => exact absurd hk (by simp)
  | cons f rest ih =>
    have hshape : ∀ t1 : Int, ∃ f1 : ConcatFile,
        f1.duration = f.duration ∧
        ((f.duration = AV_NOPTS_VALUE ∧
          ∃ tm, backfillLoop (f :: rest) t1 = (f1 :: rest, tm, false)) ∨
         (f.duration ≠ AV_NOPTS_VALUE ∧
          ∃ t2, backfillLoop (f :: rest) t1 =
            (f1 :: (backfillLoop rest t2).1, (backfillLoop rest t2).2.1,
             (backfillLoop rest t2).2.2))) := by
      intro t1
      by_cases hsf : f.start_time = AV_NOPTS_VALUE
      · refine ⟨{ f with start_time := t1 }, rfl, ?_⟩
        by_cases hdf : f.duration = AV_NOPTS_VALUE
        · refine Or.inl ⟨hdf, t1, ?_⟩
          show (let f1 := if f.start_time = AV_NOPTS_VALUE then
                            { f with start_time := t1 } else f
                let time1 := if f.start_time = AV_NOPTS_VALUE then t1
                             else f.start_time
                if f1.duration = AV_NOPTS_VALUE then (f1 :: rest, time1, false)
                else
                  let r := backfillLoop rest (time1 + f1.duration)
                  (f1 :: r.1, r.2.1, r.2.2)) = _
          rw [if_pos hsf, if_pos hsf]
          dsimp only
          rw [if_pos hdf]
        · refine Or.inr ⟨hdf, t1 + f.duration, ?_⟩
          show (let f1 := if f.start_time = AV_NOPTS_VALUE then
                            { f with start_time := t1 } else f
                let time1 := if f.start_time = AV_NOPTS_VALUE then t1
                             else f.start_time
                if f1.duration = AV_NOPTS_VALUE then (f1 :: rest, time1, false)
                else
                  let r := backfillLoop rest (time1 + f1.duration)
                  (f1 :: r.1, r.2.1, r.2.2)) = _
          rw [if_pos hsf, if_pos hsf]
          dsimp only
          rw [if_neg hdf]
      · refine ⟨f, rfl, ?_⟩
        by_cases hdf : f.duration = AV_NOPTS_VALUE
        · refine Or.inl ⟨hdf, f.start_time, ?_⟩
          show (let f1 := if f.start_time = AV_NOPTS_VALUE then
                            { f with start_time := t1 } else f
                let time1 := if f.start_time = AV_NOPTS_VALUE then t1
                             else f.start_time
                if f1.duration = AV_NOPTS_VALUE then (f1 :: rest, time1, false)
                else
                  let r := backfillLoop rest (time1 + f1.duration)
                  (f1 :: r.1, r.2.1, r.2.2)) = _
          rw [if_neg hsf, if_neg hsf]
          dsimp only
          rw [if_pos hdf]
        · refine Or.inr ⟨hdf, f.start_time + f.duration, ?_⟩
          show (let f1 := if f.start_time = AV_NOPTS_VALUE then
                            { f with start_time := t1 } else f
                let time1 := if f.start_time = AV_NOPTS_VALUE then t1
                             else f.start_time
                if f1.duration = AV_NOPTS_VALUE then (f1 :: rest, time1, false)
                else
                  let r := backfillLoop rest (time1 + f1.duration)
                  (f1 :: r.1, r.2.1, r.2.2)) = _
          rw [if_neg hsf, if_neg hsf]
          dsimp only
          rw [if_neg hdf]
    obtain ⟨f1, hf1dur, hcase⟩ := hshape t
    cases k with
    | zero =>
      have hdf : f.duration = AV_NOPTS_VALUE := by simpa using hdk
      rcases hcase with ⟨_, tm, heq⟩ | ⟨hne, _⟩
      · rw [heq]
        refine ⟨rfl, ?_⟩
        intro j hj
        cases j with
        | zero => exact absurd hj (by omega)
        | succ j1 => simp [List.getD_cons_succ]
      · exact absurd hdf hne
    | succ k1 =>
      have hk1 : k1 < rest.length := by simp at hk; omega
      have hdk1 : (rest.getD k1 dummyFile).duration = AV_NOPTS_VALUE := by
        simpa using hdk
      rcases hcase with ⟨_, tm, heq⟩ | ⟨_, t2, heq⟩
      · rw [heq]
        refine ⟨rfl, ?_⟩
        intro j hj
        cases j with
        | zero => exact absurd hj (by omega)
        | succ j1 => simp [List.getD_cons_succ]
      · rw [heq]
        obtain ⟨ihA, ihB⟩ := ih t2 k1 hk1 hdk1
        refine ⟨ihA, ?_⟩
        intro j hj
        cases j with
        | zero => exact absurd hj (by omega)
        | succ j1 =>
          simp only [List.getD_cons_succ]
          exact ihB j1 (by omega)

/-- Invariant of the binary-search loop of real_seek: on a table whose
start_time values are non-decreasing, starting from a window [left,
right) whose left end is 0 or already satisfies start_time <= ts and
whose right tail is entirely above ts, the loop lands inside the
window, on an index that is 0 or satisfies start_time <= ts, with every
later index strictly above ts. -/
lemma bsearchLoop_spec (files : List ConcatFile) (ts : Int)
    (hmono : ∀ j, j < files.length → ∀ i, i ≤ j →
      (files.getD i dummyFile).start_time ≤
        (files.getD j dummyFile).start_time) :
    ∀ fuel left right,
      right ≤ files.length → left < right → right - left ≤ fuel →
      (left = 0 ∨ (files.getD left dummyFile).start_time ≤ ts) →
      (∀ j, right ≤ j → j < files.length →
        ts < (files.getD j dummyFile).start_time) →
      left ≤ bsearchLoop files ts fuel left right ∧
      bsearchLoop files ts fuel left right < right ∧
      (bsearchLoop files ts fuel left right = 0 ∨
        (files.getD (bsearchLoop files ts fuel left right)
          dummyFile).start_time ≤ ts) ∧
      (∀ j, bsearchLoop files ts fuel left right < j → j < files.length →
        ts < (files.getD j dummyFile).start_time) := by
  intro fuel
  induction fuel with
  | zero =>
    intro left right h1 h2 h3 hl hr
    omega
  | succ f ih =>
    intro left right h1 h2 h3 hl hr
    simp only [bsearchLoop]
    by_cases hw : right - left > 1
    · rw [if_pos hw]
      by_cases hcmp : ts < (files.getD ((left + right) / 2)
          dummyFile).start_time
      · rw [if_pos hcmp]
        obtain ⟨a, b, c, d⟩ := ih left ((left + right) / 2) (by omega)
          (by omega) (by omega) hl
          (fun j hj hjl =>
            lt_of_lt_of_le hcmp (hmono j hjl ((left + right) / 2) hj))
        exact ⟨a, by omega, c, d⟩
      · rw [if_neg hcmp]
        push_neg at hcmp
        obtain ⟨a, b, c, d⟩ := ih ((left + right) / 2) right h1 (by omega)
          (by omega) (Or.inr hcmp) hr
        exact ⟨by omega, b, c, d⟩
    · rw [if_neg hw]
      refine ⟨Nat.le_refl _, h2, hl, ?_⟩
      intro j hj hjl
      exact hr j (by omega) hjl

/-- C5: on a non-empty table with non-decreasing start_time values, the
seek engine's segment-locate binary search always lands inside
[0, nb_files); whenever the target is at or past the first start_time
it returns the greatest index whose start_time is <= the target, and
when the target precedes every start_time it returns index 0.
(Termination is by construction: locateSegment is a total function.) -/
theorem C5_locate_greatest (files : List ConcatFile) (ts : Int)
    (hne : files ≠ [])
    (hmono : ∀ j, j < files.length → ∀ i, i ≤ j →
      (files.getD i dummyFile).start_time ≤
        (files.getD j dummyFile).start_time) :
    locateSegment files ts < files.length ∧
    ((files.getD 0 dummyFile).start_time ≤ ts →
      (files.getD (locateSegment files ts) dummyFile).start_time ≤ ts ∧
      (∀ j, j < files.length →
        (files.getD j dummyFile).start_time ≤ ts →
        j ≤ locateSegment files ts)) ∧
    (ts < (files.getD 0 dummyFile).start_time →
      locateSegment files ts = 0) := by
  have hlen : 0 < files.length := List.length_pos.mpr hne
  unfold locateSegment
  obtain ⟨ha, hb, hc, hd⟩ := bsearchLoop_spec files ts hmono files.length 0
    files.length (Nat.le_refl _) hlen (by omega) (Or.inl rfl)
    (fun j hj hjl => absurd hjl (by omega))
  refine ⟨hb, ?_, ?_⟩
  · intro h0
    refine ⟨?_, ?_⟩
    · rcases hc with h | h
      · rw [h]; exact h0
      · exact h
    · intro j hjl hts
      by_contra hgt
      push_neg at hgt
      exact absurd hts (not_le.mpr (hd j hgt hjl))
  · intro h0
    rcases hc with h | h
    · exact h
    · have hmono0 := hmono _ hb 0 (Nat.zero_le _)
      omega

/-- C5 witness: locating timestamp 12 in the table with starts 0 and 10
returns index 1 territory: inside the table and below the target. -/
theorem C5_locate_greatest_witness :
    locateSegment catSeekable.files 12 < catSeekable.files.length ∧
    (catSeekable.files.getD (locateSegment catSeekable.files 12)
      dummyFile).start_time ≤ 12 := by
  have h := C5_locate_greatest catSeekable.files 12 (by decide) (by decide)
  exact ⟨h.1, (h.2.1 (by decide)).1⟩

lemma countOpens_append (a b : List Event) :
    countOpens (a ++ b) = countOpens a + countOpens b := by
  simp [countOpens, List.filter_append]

lemma av_read_frame_exhausted (r : Reader) (h : r.reads = []) :
    av_read_frame r = (AVERROR_EOF, none, r) := by
  unfold av_read_frame
  rw [h]

/-- One advance attempt in the persistent-failure scenario: with the
current reader installed, a successor inside the table and the oracle
failing on it with e, open_next_file returns e, records exactly one
open attempt on index cur_file + 1, and leaves reader, index, table
size and sticky error unchanged (only the current file's duration may
have been backfilled from the reader). -/
lemma open_next_file_fail (env : Nat → Except Int Reader) (e : Int)
    (cat : ConcatContext) (r : Reader)
    (hav : cat.avf = some r)
    (hcur : cat.cur_file + 1 < cat.nb_files)
    (henv : env (cat.cur_file + 1) = Except.error e) :
    (open_next_file env cat).ret = e ∧
    (open_next_file env cat).events =
      [Event.openAttempt (cat.cur_file + 1)] ∧
    (open_next_file env cat).cat.avf = some r ∧
    (open_next_file env cat).cat.cur_file = cat.cur_file ∧
    (open_next_file env cat).cat.nb_files = cat.nb_files ∧
    (open_next_file env cat).cat.error = cat.error := by
  have main : ∀ cat1 : ConcatContext, cat1.avf = some r →
      cat1.cur_file = cat.cur_file → cat1.nb_files = cat.nb_files →
      cat1.error = cat.error →
      (if cat.cur_file + 1 ≥ cat1.nb_files then
          (⟨AVERROR_EOF, cat1, []⟩ : StepResult)
        else open_file env cat1 (cat.cur_file + 1)).ret = e ∧
      (if cat.cur_file + 1 ≥ cat1.nb_files then
          (⟨AVERROR_EOF, cat1, []⟩ : StepResult)
        else open_file env cat1 (cat.cur_file + 1)).events =
        [Event.openAttempt (cat.cur_file + 1)] ∧
      (if cat.cur_file + 1 ≥ cat1.nb_files then
          (⟨AVERROR_EOF, cat1, []⟩ : StepResult)
        else open_file env cat1 (cat.cur_file + 1)).cat.avf = some r ∧
      (if cat.cur_file + 1 ≥ cat1.nb_files then
          (⟨AVERROR_EOF, cat1, []⟩ : StepResult)
        else open_file env cat1 (cat.cur_file + 1)).cat.cur_file
        = cat.cur_file ∧
      (if cat.cur_file + 1 ≥ cat1.nb_files then
          (⟨AVERROR_EOF, cat1, []⟩ : StepResult)
        else open_file env cat1 (cat.cur_file + 1)).cat.nb_files
        = cat.nb_files ∧
      (if cat.cur_file + 1 ≥ cat1.nb_files then
          (⟨AVERROR_EOF, cat1, []⟩ : StepResult)
        else open_file env cat1 (cat.cur_file + 1)).cat.error
        = cat.error := by
    intro cat1 a1 a2 a3 a4
    rw [if_neg (by rw [a3]; omega)]
    unfold open_file
    rw [henv]
    exact ⟨rfl, rfl, a1, a2, a3, a4⟩
  unfold open_next_file
  dsimp only
  exact main _
    (by split
        · exact hav
        · exact hav)
    (by split
        · rfl
        · rfl)
    (by split
        · simp [ConcatContext.nb_files]
        · rfl)
    (by split
        · rfl
        · rfl)

/-- The retry loop of concat_read_packet under a persistently failing
successor open: starting at try counter tc (with enough fuel), it
performs exactly (CONCAT_MAX_OPEN_TRY + 1) - tc open attempts, all on
index cur_file + 1, then records the open error e as the sticky error
and reports AVERROR_EOF, with reader and current index unchanged. -/
lemma readLoop_persistent_fail (env : Nat → Except Int Reader) (e : Int)
    (he : e < 0) :
    ∀ (fuel : Nat) (tc : Nat) (cat : ConcatContext) (r : Reader),
      cat.avf = some r → r.reads = [] →
      cat.cur_file + 1 < cat.nb_files →
      env (cat.cur_file + 1) = Except.error e →
      tc ≤ 3 → 4 - tc ≤ fuel →
      (readLoop env fuel cat tc).ret = AVERROR_EOF ∧
      (readLoop env fuel cat tc).pkt = none ∧
      (readLoop env fuel cat tc).cat.error = e ∧
      (readLoop env fuel cat tc).cat.avf = cat.avf ∧
      (readLoop env fuel cat tc).cat.cur_file = cat.cur_file ∧
      countOpens (readLoop env fuel cat tc).events = 4 - tc ∧
      (∀ i, Event.openAttempt i ∈ (readLoop env fuel cat tc).events →
        i = cat.cur_file + 1) := by
  intro fuel
  induction fuel with
  | zero =>
    intro tc cat r _ _ _ _ htc hfuel
    omega
  | succ f ih =>
    intro tc cat r hav hreads hcur henv htc hfuel
    simp only [readLoop]
    rw [hav]
    dsimp only
    rw [av_read_frame_exhausted r hreads]
    dsimp only
    rw [if_neg (by simp)]
    have hav1 : ({ cat with avf := some r } : ConcatContext).avf = some r :=
      rfl
    obtain ⟨s1, s2, s3, s4, s5, s6⟩ :=
      open_next_file_fail env e { cat with avf := some r } r hav1 hcur henv
    rw [if_pos (by rw [s1]; exact he)]
    by_cases htc3 : tc + 1 > CONCAT_MAX_OPEN_TRY
    · rw [if_pos htc3]
      have htc4 : tc = 3 := by
        unfold CONCAT_MAX_OPEN_TRY at htc3; omega
      refine ⟨rfl, rfl, by dsimp only; rw [s1], by dsimp only; rw [s3],
        by dsimp only; rw [s4], ?_, ?_⟩
      · rw [countOpens_append, s2]
        subst htc4
        rfl
      · intro i hi
        rw [s2] at hi
        simp only [List.mem_append, List.mem_singleton] at hi
        rcases hi with hi | hi
        · simp [countOpens] at hi
        · injection hi with hh
    · rw [if_neg htc3]
      have htcle : tc + 1 ≤ 3 := by
        unfold CONCAT_MAX_OPEN_TRY at htc3; omega
      obtain ⟨i1, i2, i3, i4, i5, i6, i7⟩ :=
        ih (tc + 1) (open_next_file env { cat with avf := some r }).cat r
          (by rw [s3]) hreads (by rw [s4, s5]; exact hcur)
          (by rw [s4]; exact henv) htcle (by omega)
      refine ⟨i1, i2, i3, by rw [i4, s3], by rw [i5, s4], ?_, ?_⟩
      · rw [countOpens_append, countOpens_append, s2]
        have : countOpens [Event.readAttempt r.id] = 0 := rfl
        rw [this, i6]
        have : countOpens [Event.openAttempt (cat.cur_file + 1)] = 1 := rfl
        rw [this]
        omega
      · intro i hi
        simp only [List.mem_append] at hi
        rcases hi with (hi | hi) | hi
        · simp at hi
        · rw [s2] at hi
          simp only [List.mem_singleton] at hi
          injection hi with hh
        · have := i7 i hi
          rw [s4] at this
          exact this

lemma open_file_fail_eq (env : Nat → Except Int Reader)
    (cat : ConcatContext) (i : Nat) (e : Int)
    (h : env i = Except.error e) :
    open_file env cat i = ⟨e, cat, [Event.openAttempt i]⟩ := by
  unfold open_file
  rw [h]

lemma open_file_ok_shape (env : Nat → Except Int Reader)
    (cat : ConcatContext) (i : Nat) (r : Reader)
    (h : env i = Except.ok r) :
    (open_file env cat i).ret = 0 ∧
    (open_file env cat i).cat.avf = some r ∧
    (open_file env cat i).cat.cur_file = i ∧
    (open_file env cat i).events = Event.openAttempt i ::
      (match cat.avf with
       | some rOld => [Event.close rOld.id]
       | none => []) := by
  unfold open_file
  rw [h]
  exact ⟨rfl, rfl, rfl, rfl⟩

lemma open_file_files_eq_of_known (env : Nat → Except Int Reader)
    (cat : ConcatContext) (i : Nat)
    (h : (cat.fileAt i).start_time ≠ AV_NOPTS_VALUE) :
    (open_file env cat i).cat.files = cat.files := by
  unfold open_file
  cases env i with
  | error e => rfl
  | ok r =>
    dsimp only
    rw [if_neg h]

/-- Exhaustive description of a real_seek run started (as concat_seek
does) with no reader installed: either the stream index was rejected,
or the locate-open failed, or the located segment was opened (with or
without the fallback open of the next segment), with the corresponding
event trace and installed reader. -/
lemma real_seek_cases (env : Nat → Except Int Reader) (vs : VirtualStreams)
    (cat : ConcatContext) (stream : Int) (mn ts mx : Int) (flags : Nat)
    (h0 : cat.avf = none)
    (henvwf : ∀ i e, env i = Except.error e → e < 0) :
    (real_seek env vs cat stream mn ts mx flags).events = [] ∨
    (∃ le e, env le = Except.error e ∧
      (real_seek env vs cat stream mn ts mx flags).events =
        [Event.openAttempt le] ∧
      (real_seek env vs cat stream mn ts mx flags).cat = cat) ∨
    (∃ le rA, env le = Except.ok rA ∧
      (real_seek env vs cat stream mn ts mx flags).events =
        [Event.openAttempt le] ∧
      (real_seek env vs cat stream mn ts mx flags).cat.avf = some rA) ∨
    (∃ le rA e2, env le = Except.ok rA ∧
      env (le + 1) = Except.error e2 ∧
      (real_seek env vs cat stream mn ts mx flags).events =
        [Event.openAttempt le, Event.openAttempt (le + 1)] ∧
      (real_seek env vs cat stream mn ts mx flags).cat.avf = some rA) ∨
    (∃ le rA rB, env le = Except.ok rA ∧
      env (le + 1) = Except.ok rB ∧
      (real_seek env vs cat stream mn ts mx flags).events =
        [Event.openAttempt le, Event.openAttempt (le + 1),
         Event.close rA.id] ∧
      (real_seek env vs cat stream mn ts mx flags).cat.avf = some rB) := by
  unfold real_seek
  split
  · exact Or.inl rfl
  · generalize (if stream ≥ 0 then
        rescale_interval (vs.tbs.getD stream.toNat (1, 1)) AV_TIME_BASE_Q
          mn ts mx
      else (mn, ts, mx)) = w0
    obtain ⟨mn1, ts1, mx1⟩ := w0
    dsimp only
    rcases henvle : env (locateSegment cat.files ts1) with e | rA
    · rw [open_file_fail_eq env cat _ e henvle]
      dsimp only
      rw [if_pos (henvwf _ _ henvle)]
      exact Or.inr (Or.inl ⟨locateSegment cat.files ts1, e, henvle, rfl, rfl⟩)
    · obtain ⟨p1, p2, p3, p4⟩ := open_file_ok_shape env cat _ rA henvle
      rw [h0] at p4
      dsimp only at p4
      rw [if_neg (by rw [p1]; omega)]
      split
      · rcases henv2 : env (locateSegment cat.files ts1 + 1) with e2 | rB
        · rw [open_file_fail_eq env _ _ e2 henv2]
          dsimp only
          rw [if_pos (henvwf _ _ henv2)]
          refine Or.inr (Or.inr (Or.inr (Or.inl
            ⟨locateSegment cat.files ts1, rA, e2, henvle, henv2, ?_, p2⟩)))
          rw [p4]
          rfl
        · obtain ⟨q1, q2, q3, q4⟩ := open_file_ok_shape env _ _ rB henv2
          rw [p2] at q4
          dsimp only at q4
          rw [if_neg (by rw [q1]; omega)]
          refine Or.inr (Or.inr (Or.inr (Or.inr
            ⟨locateSegment cat.files ts1, rA, rB, henvle, henv2, ?_, q2⟩)))
          rw [p4, q4]
          rfl
      · exact Or.inr (Or.inr (Or.inl
          ⟨locateSegment cat.files ts1, rA, henvle, p4, p2⟩))

/-- Every reader opened during a real_seek run is either closed within
the run or left installed as the current reader at the end. -/
lemma real_seek_closes (env : Nat → Except Int Reader) (vs : VirtualStreams)
    (cat : ConcatContext) (stream : Int) (mn ts mx : Int) (flags : Nat)
    (h0 : cat.avf = none)
    (henvwf : ∀ i e, env i = Except.error e → e < 0) :
    ∀ i r, Event.openAttempt i ∈
        (real_seek env vs cat stream mn ts mx flags).events →
      env i = Except.ok r →
      Event.close r.id ∈
        (real_seek env vs cat stream mn ts mx flags).events ∨
      (real_seek env vs cat stream mn ts mx flags).cat.avf = some r := by
  intro i r hmem hok
  rcases real_seek_cases env vs cat stream mn ts mx flags h0 henvwf with
    h | ⟨le, e, he1, he2, _⟩ | ⟨le, rA, ha1, ha2, ha3⟩ |
    ⟨le, rA, e2, hb1, hb2, hb3, hb4⟩ | ⟨le, rA, rB, hc1, hc2, hc3, hc4⟩
  · rw [h] at hmem
    simp at hmem
  · rw [he2] at hmem
    simp only [List.mem_singleton] at hmem
    injection hmem with hmem
    subst hmem
    rw [hok] at he1
    exact absurd he1 (by simp)
  · rw [ha2] at hmem
    simp only [List.mem_singleton] at hmem
    injection hmem with hmem
    subst hmem
    rw [hok] at ha1
    injection ha1 with ha1
    subst ha1
    exact Or.inr ha3
  · rw [hb3] at hmem
    simp only [List.mem_cons, List.mem_singleton, List.not_mem_nil,
      or_false] at hmem
    rcases hmem with hmem | hmem
    · injection hmem with hmem
      subst hmem
      rw [hok] at hb1
      injection hb1 with hb1
      subst hb1
      exact Or.inr hb4
    · injection hmem with hmem
      subst hmem
      rw [hok] at hb2
      exact absurd hb2 (by simp)
  · rw [hc3] at hmem
    simp only [List.mem_cons, List.not_mem_nil, or_false] at hmem
    rcases hmem with hmem | hmem | hmem
    · injection hmem with hmem
      subst hmem
      rw [hok] at hc1
      injection hc1 with hc1
      subst hc1
      rw [hc3]
      exact Or.inl (by simp)
    · injection hmem with hmem
      subst hmem
      rw [hok] at hc2
      injection hc2 with hc2
      subst hc2
      exact Or.inr hc4
    · exact absurd hmem (by simp)

/-- Where a successful time-based real_seek (stream = -1, "any stream")
leaves the current segment: on the located index, or — only via the
one-ahead fallback, whose guard requires the located index not to be
the last and the next start_time to be below the max bound — on the
located index plus one. -/
lemma real_seek_success_cur (env : Nat → Except Int Reader)
    (vs : VirtualStreams) (cat : ConcatContext) (mn ts mx : Int)
    (flags : Nat)
    (henvwf : ∀ i e, env i = Except.error e → e < 0) :
    0 ≤ (real_seek env vs cat (-1) mn ts mx flags).ret →
    (real_seek env vs cat (-1) mn ts mx flags).cat.cur_file
      = locateSegment cat.files ts ∨
    ((real_seek env vs cat (-1) mn ts mx flags).cat.cur_file
      = locateSegment cat.files ts + 1 ∧
     locateSegment cat.files ts <
       (open_file env cat (locateSegment cat.files ts)).cat.nb_files - 1 ∧
     ((open_file env cat (locateSegment cat.files ts)).cat.fileAt
       (locateSegment cat.files ts + 1)).start_time < mx) := by
  unfold real_seek
  rw [if_neg (show ¬((-1 : Int) ≥ 0 ∧
      (-1 : Int) ≥ (vs.tbs.length : Int)) from
    fun hcon => absurd hcon.1 (by norm_num))]
  rw [if_neg (show ¬((-1 : Int) ≥ 0) by norm_num)]
  dsimp only
  rcases henvk : env (locateSegment cat.files ts) with e | rK
  · rw [open_file_fail_eq env cat _ e henvk]
    dsimp only
    rw [if_pos (henvwf _ _ henvk)]
    intro h0
    exact absurd h0 (not_le.mpr (henvwf _ _ henvk))
  · obtain ⟨p1, p2, p3, p4⟩ := open_file_ok_shape env cat
      (locateSegment cat.files ts) rK henvk
    rw [if_neg (by rw [p1]; omega)]
    split
    case isTrue hg =>
      obtain ⟨hg1, hg2, hg3⟩ := hg
      rcases henvk1 : env (locateSegment cat.files ts + 1) with e2 | rK1
      · rw [open_file_fail_eq env _ _ e2 henvk1]
        dsimp only
        rw [if_pos (henvwf _ _ henvk1)]
        intro h0
        exact absurd h0 (not_le.mpr (henvwf _ _ henvk1))
      · obtain ⟨q1, q2, q3, q4⟩ := open_file_ok_shape env
          (open_file env cat (locateSegment cat.files ts)).cat
          (locateSegment cat.files ts + 1) rK1 henvk1
        rw [if_neg (by rw [q1]; omega)]
        intro _
        exact Or.inr ⟨q3, hg2, hg3⟩
    case isFalse hg =>
      intro _
      exact Or.inl p3

/-! ## Claim theorems -/

/-- C8: a seek on a non-seekable table, or one carrying a byte- or
frame-based flag, fails with a NotSupported code (ESPIPE resp. ENOSYS)
without attempting any segment open and without changing the active
segment, the reader, or the table. -/
theorem C8_seek_rejections (env : Nat → Except Int Reader)
    (vs : VirtualStreams) (cat : ConcatContext) (stream : Int)
    (mn ts mx : Int) (flags : Nat)
    (h : cat.seekable = false ∨
         flags &&& (AVSEEK_FLAG_BYTE ||| AVSEEK_FLAG_FRAME) ≠ 0) :
    isNotSupported (concat_seek env vs cat stream mn ts mx flags).ret ∧
    (concat_seek env vs cat stream mn ts mx flags).events = [] ∧
    (concat_seek env vs cat stream mn ts mx flags).cat.cur_file
      = cat.cur_file ∧
    (concat_seek env vs cat stream mn ts mx flags).cat.avf = cat.avf ∧
    (concat_seek env vs cat stream mn ts mx flags).cat.files = cat.files := by
  unfold concat_seek
  rcases h with h | h
  · simp [h, isNotSupported]
  · by_cases hs : cat.seekable = false
    · simp [hs, isNotSupported]
    · have hs1 : cat.seekable = true := by
        cases hc : cat.seekable
        · exact absurd hc hs
        · rfl
      simp [hs1, h, isNotSupported]

/-- C8 witness: a byte-flagged seek on the concrete seekable table. -/
theorem C8_seek_rejections_witness :
    (catSeekable.seekable = false ∨
      (AVSEEK_FLAG_BYTE &&& (AVSEEK_FLAG_BYTE ||| AVSEEK_FLAG_FRAME) ≠ 0)) ∧
    isNotSupported
      (concat_seek envSeek vsMicro catSeekable (-1) 0 5 20
        AVSEEK_FLAG_BYTE).ret := by
  refine ⟨Or.inr (by decide), ?_⟩
  exact (C8_seek_rejections envSeek vsMicro catSeekable (-1) 0 5 20
    AVSEEK_FLAG_BYTE (Or.inr (by decide))).1

/-- C7: open_segment(index) mutates nothing on failure (the previous
active segment and reader stay installed and no descriptor changes);
on success it installs the new reader and index, closes the previous
reader, leaves every other descriptor alone, and backfills start_time
only when it was still unknown (to 0 for index 0, else to the previous
descriptor's start_time + duration). -/
theorem C7_open_file_atomic (env : Nat → Except Int Reader)
    (cat : ConcatContext) (fileno : Nat) :
    (∀ e, env fileno = Except.error e →
      open_file env cat fileno = ⟨e, cat, [Event.openAttempt fileno]⟩) ∧
    (∀ r, env fileno = Except.ok r →
      (open_file env cat fileno).ret = 0 ∧
      (open_file env cat fileno).cat.avf = some r ∧
      (open_file env cat fileno).cat.cur_file = fileno ∧
      (∀ j, j ≠ fileno →
        (open_file env cat fileno).cat.fileAt j = cat.fileAt j) ∧
      ((cat.fileAt fileno).start_time ≠ AV_NOPTS_VALUE →
        (open_file env cat fileno).cat.files = cat.files) ∧
      ((cat.fileAt fileno).start_time = AV_NOPTS_VALUE →
        ((open_file env cat fileno).cat.fileAt fileno).start_time =
          (if fileno = 0 then 0
           else (cat.fileAt (fileno - 1)).start_time +
                (cat.fileAt (fileno - 1)).duration)) ∧
      (∀ rOld, cat.avf = some rOld →
        Event.close rOld.id ∈ (open_file env cat fileno).events)) := by
  constructor
  · intro e he
    unfold open_file
    rw [he]
  · intro r hr
    have hlt := fileAt_lt_of_start_nopts cat fileno
    unfold open_file
    rw [hr]
    dsimp only
    by_cases hst : (cat.fileAt fileno).start_time = AV_NOPTS_VALUE
    · rw [if_pos hst]
      refine ⟨rfl, rfl, rfl, ?_, ?_, ?_, ?_⟩
      · intro j hj
        unfold ConcatContext.fileAt
        exact filesGetD_set_ne cat.files fileno j _ (fun hh => hj hh.symm)
      · intro hne; exact absurd hst hne
      · intro _
        unfold ConcatContext.fileAt
        rw [filesGetD_set_self cat.files fileno _ (hlt hst)]
      · intro rOld hOld
        simp [hOld]
    · rw [if_neg hst]
      refine ⟨rfl, rfl, rfl, ?_, ?_, ?_, ?_⟩
      · intro j _
        rfl
      · intro _
        rfl
      · intro hh; exact absurd hh hst
      · intro rOld hOld
        simp [hOld]

/-- C7 witness: failing and succeeding opens on the concrete table. -/
theorem C7_open_file_atomic_witness :
    open_file envFail catTwoFiles 1 =
      ⟨-5, catTwoFiles, [Event.openAttempt 1]⟩ ∧
    (open_file envSeek catSeekable 1).cat.cur_file = 1 := by
  constructor
  · exact (C7_open_file_atomic envFail catTwoFiles 1).1 (-5) rfl
  · exact ((C7_open_file_atomic envSeek catSeekable 1).2
      (readerSeekOk 21) rfl).2.2.1

/-- C3: a concat_seek that passes the entry checks and then fails at any
stage (locate-open, in-segment seek, or the one-ahead fallback) is
rolled back: the previously saved active segment index and reader are
restored as current, every reader successfully opened during the seek
has been closed, and the call returns the failure; on success the
previously saved reader is closed and discarded. -/
theorem C3_seek_rollback (env : Nat → Except Int Reader)
    (vs : VirtualStreams) (cat : ConcatContext) (stream : Int)
    (mn ts mx : Int) (flags : Nat)
    (henvwf : ∀ i e, env i = Except.error e → e < 0)
    (hs : cat.seekable = true)
    (hf : flags &&& (AVSEEK_FLAG_BYTE ||| AVSEEK_FLAG_FRAME) = 0) :
    ((concat_seek env vs cat stream mn ts mx flags).ret < 0 →
      (concat_seek env vs cat stream mn ts mx flags).cat.cur_file
        = cat.cur_file ∧
      (concat_seek env vs cat stream mn ts mx flags).cat.avf = cat.avf ∧
      (∀ i r, Event.openAttempt i ∈
          (concat_seek env vs cat stream mn ts mx flags).events →
        env i = Except.ok r →
        Event.close r.id ∈
          (concat_seek env vs cat stream mn ts mx flags).events)) ∧
    (0 ≤ (concat_seek env vs cat stream mn ts mx flags).ret →
      ∀ r, cat.avf = some r →
        Event.close r.id ∈
          (concat_seek env vs cat stream mn ts mx flags).events) := by
  unfold concat_seek
  dsimp only
  rw [if_neg (by simp [hs]), if_neg (by simp [hf])]
  split
  case isTrue hlt =>
    refine ⟨fun _ => ⟨rfl, rfl, ?_⟩,
      fun hge => absurd hge (by dsimp only; omega)⟩
    intro i r hi hok
    dsimp only at hi ⊢
    rcases h2 : (real_seek env vs { cat with error := 0, avf := none }
        stream mn ts mx flags).cat.avf with _ | r2
    · rw [h2] at hi
      dsimp only at hi
      rw [List.append_nil] at hi
      rcases real_seek_closes env vs _ stream mn ts mx flags rfl henvwf
          i r hi hok with hcl | hcl
      · dsimp only
        rw [List.append_nil]
        exact hcl
      · rw [h2] at hcl
        exact absurd hcl (by simp)
    · rw [h2] at hi
      dsimp only at hi
      have hi2 : Event.openAttempt i ∈
          (real_seek env vs { cat with error := 0, avf := none }
            stream mn ts mx flags).events := by
        rcases List.mem_append.mp hi with h | h
        · exact h
        · simp at h
      rcases real_seek_closes env vs _ stream mn ts mx flags rfl henvwf
          i r hi2 hok with hcl | hcl
      · dsimp only
        exact List.mem_append_left _ hcl
      · rw [h2] at hcl
        injection hcl with he
        subst he
        dsimp only
        exact List.mem_append_right _ (by simp)
  case isFalse hge =>
    refine ⟨fun hlt => absurd hlt hge, fun _ r hr => ?_⟩
    dsimp only
    rw [hr]
    dsimp only
    exact List.mem_append_right _ (by simp)

/-- C3 witness: on the concrete seekable table, a seek whose in-segment
seek is rejected and whose fallback is ruled out by the max bound fails
and restores the previously active segment and reader. -/
theorem C3_seek_rollback_witness :
    (concat_seek envSeek vsMicro catSeekable (-1) 0 0 5 0).ret < 0 ∧
    (concat_seek envSeek vsMicro catSeekable (-1) 0 0 5 0).cat.cur_file
      = catSeekable.cur_file ∧
    (concat_seek envSeek vsMicro catSeekable (-1) 0 0 5 0).cat.avf
      = catSeekable.avf := by
  have henvwf : ∀ i e, envSeek i = Except.error e → e < 0 := by
    intro i e h
    unfold envSeek at h
    split_ifs at h
    injection h with h
    omega
  have hret : (concat_seek envSeek vsMicro catSeekable (-1) 0 0 5 0).ret
      < 0 := by decide
  obtain ⟨ha, hb, _⟩ := (C3_seek_rollback envSeek vsMicro catSeekable
    (-1) 0 0 5 0 henvwf rfl (by decide)).1 hret
  exact ⟨hret, ha, hb⟩

/-- C9: on a seekable table with strictly increasing (all known) start
times, a time-based seek targeting exactly start_time k locates segment
k; when the call succeeds, the active segment is k, or — only when the
in-segment seek was retried one segment ahead, which requires k not to
be the last segment and start_time (k+1) to lie below the max bound —
segment k+1.  It never lands on segment k-1. -/
theorem C9_boundary_landing (env : Nat → Except Int Reader)
    (vs : VirtualStreams) (cat : ConcatContext) (k : Nat) (mn mx : Int)
    (flags : Nat)
    (henvwf : ∀ i e, env i = Except.error e → e < 0)
    (hs : cat.seekable = true)
    (hf : flags &&& (AVSEEK_FLAG_BYTE ||| AVSEEK_FLAG_FRAME) = 0)
    (hk : k < cat.nb_files)
    (hstrict : ∀ j, j < cat.nb_files → ∀ i, i < j →
      (cat.files.getD i dummyFile).start_time <
        (cat.files.getD j dummyFile).start_time)
    (hknown : ∀ i, i < cat.nb_files →
      (cat.files.getD i dummyFile).start_time ≠ AV_NOPTS_VALUE) :
    locateSegment cat.files ((cat.files.getD k dummyFile).start_time)
      = k ∧
    (0 ≤ (concat_seek env vs cat (-1) mn
        ((cat.files.getD k dummyFile).start_time) mx flags).ret →
      (concat_seek env vs cat (-1) mn
        ((cat.files.getD k dummyFile).start_time) mx flags).cat.cur_file
        = k ∨
      ((concat_seek env vs cat (-1) mn
          ((cat.files.getD k dummyFile).start_time) mx
          flags).cat.cur_file = k + 1 ∧
        k + 1 < cat.nb_files ∧
        (cat.files.getD (k + 1) dummyFile).start_time < mx)) := by
  have hk1 : k < cat.files.length := hk
  have hmono : ∀ j, j < cat.files.length → ∀ i, i ≤ j →
      (cat.files.getD i dummyFile).start_time ≤
        (cat.files.getD j dummyFile).start_time := by
    intro j hj i hij
    rcases eq_or_lt_of_le hij with rfl | hlt
    · exact le_refl _
    · exact le_of_lt (hstrict j hj i hlt)
  have hloc : locateSegment cat.files
      ((cat.files.getD k dummyFile).start_time) = k := by
    obtain ⟨ha, hb, hc, hd⟩ := bsearchLoop_spec cat.files
      ((cat.files.getD k dummyFile).start_time) hmono cat.files.length 0
      cat.files.length (Nat.le_refl _) (by omega) (by omega) (Or.inl rfl)
      (fun j hj hjl => absurd hjl (by omega))
    unfold locateSegment
    refine Nat.le_antisymm ?_ ?_
    · by_contra hgt
      push_neg at hgt
      rcases hc with h | h
      · omega
      · exact absurd h (not_le.mpr (hstrict _ hb k hgt))
    · by_contra hgt
      push_neg at hgt
      exact absurd (hd k hgt hk1) (lt_irrefl _)
  refine ⟨hloc, ?_⟩
  unfold concat_seek
  dsimp only
  rw [if_neg (by simp [hs]), if_neg (by simp [hf])]
  split
  case isTrue hlt =>
    intro h0
    exact absurd h0 (not_le.mpr hlt)
  case isFalse hge =>
    intro _
    have hlem := real_seek_success_cur env vs
      { cat with error := 0, avf := none } mn
      ((cat.files.getD k dummyFile).start_time) mx flags henvwf
      (not_lt.mp hge)
    have hlock : locateSegment
        ({ cat with error := 0, avf := none } : ConcatContext).files
        ((cat.files.getD k dummyFile).start_time) = k := hloc
    rw [hlock] at hlem
    have pfiles : (open_file env
        { cat with error := 0, avf := none } k).cat.files = cat.files :=
      open_file_files_eq_of_known env _ k (hknown k hk)
    rcases hlem with h | ⟨hcur, hg2, hg3⟩
    · exact Or.inl h
    · refine Or.inr ⟨hcur, ?_, ?_⟩
      · have hnb : (open_file env
            { cat with error := 0, avf := none } k).cat.nb_files
            = cat.files.length := by
          unfold ConcatContext.nb_files
          rw [pfiles]
        rw [hnb] at hg2
        show k + 1 < cat.files.length
        omega
      · have hfa : (open_file env
            { cat with error := 0, avf := none } k).cat.fileAt (k + 1)
            = cat.files.getD (k + 1) dummyFile := by
          unfold ConcatContext.fileAt
          rw [pfiles]
        rw [hfa] at hg3
        exact hg3

/-- C9 witness: seeking to start_time 1 = 10 on the concrete seekable
table, whose segment-1 reader rejects nothing: the locate step returns
1 and a successful call lands on segment 1 or (within the bound) 2. -/
theorem C9_boundary_landing_witness :
    locateSegment catSeekable.files
      ((catSeekable.files.getD 1 dummyFile).start_time) = 1 ∧
    (0 ≤ (concat_seek envSeek vsMicro catSeekable (-1) 0
        ((catSeekable.files.getD 1 dummyFile).start_time) 20 0).ret →
      (concat_seek envSeek vsMicro catSeekable (-1) 0
        ((catSeekable.files.getD 1 dummyFile).start_time) 20
        0).cat.cur_file = 1 ∨
      ((concat_seek envSeek vsMicro catSeekable (-1) 0
          ((catSeekable.files.getD 1 dummyFile).start_time) 20
          0).cat.cur_file = 2 ∧ 2 < catSeekable.nb_files ∧
        (catSeekable.files.getD 2 dummyFile).start_time < 20)) := by
  have henvwf : ∀ i e, envSeek i = Except.error e → e < 0 := by
    intro i e h
    unfold envSeek at h
    split_ifs at h
    injection h with h
    omega
  exact C9_boundary_landing envSeek vsMicro catSeekable 1 0 20 0 henvwf
    rfl (by decide) (by decide) (by decide) (by decide)

/-- C1 counterexample: with segment 1 failing to open with -5 (EIO), the
first exhausting read reports AVERROR_EOF, but the next read returns
the stored -5 — not the same terminal outcome as the end-of-sequence
report the first call produced. -/
theorem C1_counterexample :
    (concat_read_packet envFail 20 catTwoFiles).ret = AVERROR_EOF ∧
    (concat_read_packet envFail 20
      (concat_read_packet envFail 20 catTwoFiles).cat).ret = -5 ∧
    (-5 : Int) ≠ AVERROR_EOF := by
  exact ⟨by decide, by decide, by decide⟩

/-- C1 amended: when the successor segment persistently fails to open
with error e, one read call performs the initial advance plus exactly
CONCAT_MAX_OPEN_TRY = 3 retries (4 open attempts in total), records e
as the sticky error and reports AVERROR_EOF; every subsequent read call
returns the stored error e immediately — performing no open and no read
— which coincides with the first end-of-sequence report only when e is
itself AVERROR_EOF. -/
theorem C1_retry_bound_sticky (env : Nat → Except Int Reader) (e : Int)
    (fuel : Nat) (cat : ConcatContext) (r : Reader)
    (hav : cat.avf = some r) (hreads : r.reads = [])
    (hcur : cat.cur_file + 1 < cat.nb_files)
    (henv : env (cat.cur_file + 1) = Except.error e) (he : e < 0)
    (herr : cat.error = 0) (hfuel : 4 ≤ fuel) :
    (concat_read_packet env fuel cat).ret = AVERROR_EOF ∧
    (concat_read_packet env fuel cat).cat.error = e ∧
    countOpens (concat_read_packet env fuel cat).events =
      1 + CONCAT_MAX_OPEN_TRY ∧
    (∀ fuel2,
      concat_read_packet env fuel2 (concat_read_packet env fuel cat).cat =
        ⟨e, none, (concat_read_packet env fuel cat).cat, []⟩) := by
  obtain ⟨h1, h2, h3, h4, h5, h6, h7⟩ :=
    readLoop_persistent_fail env e he fuel 0 cat r hav hreads hcur henv
      (by omega) (by omega)
  have hmain : concat_read_packet env fuel cat =
      ⟨(readLoop env fuel cat 0).ret, (readLoop env fuel cat 0).pkt,
       (readLoop env fuel cat 0).cat, (readLoop env fuel cat 0).events⟩ := by
    unfold concat_read_packet
    rw [if_neg (by simp [herr])]
    dsimp only
    rw [if_pos (by rw [h1]; decide)]
  rw [hmain]
  refine ⟨h1, h3, by rw [h6]; rfl, ?_⟩
  intro fuel2
  unfold concat_read_packet
  rw [if_pos (by dsimp only; rw [h3]; omega)]
  dsimp only
  rw [h3]

/-- C1 witness: the concrete two-file table under the failing oracle. -/
theorem C1_retry_bound_sticky_witness :
    (concat_read_packet envFail 20 catTwoFiles).ret = AVERROR_EOF ∧
    (concat_read_packet envFail 20 catTwoFiles).cat.error = -5 ∧
    countOpens (concat_read_packet envFail 20 catTwoFiles).events =
      1 + CONCAT_MAX_OPEN_TRY := by
  have h := C1_retry_bound_sticky envFail (-5) 20 catTwoFiles readerEmpty
    rfl rfl (by decide) rfl (by decide) rfl (by decide)
  exact ⟨h.1, h.2.1, h.2.2.1⟩

/-- C10: under a persistently failing successor open, every open attempt
of one read call targets the same index cur_file + 1 — a failed open
leaves the active segment unchanged, so the failing segment is retried,
never skipped — and the call leaves the active index unchanged. -/
theorem C10_same_successor_retried (env : Nat → Except Int Reader)
    (e : Int) (fuel : Nat) (cat : ConcatContext) (r : Reader)
    (hav : cat.avf = some r) (hreads : r.reads = [])
    (hcur : cat.cur_file + 1 < cat.nb_files)
    (henv : env (cat.cur_file + 1) = Except.error e) (he : e < 0)
    (herr : cat.error = 0) (hfuel : 4 ≤ fuel) :
    (∀ i, Event.openAttempt i ∈ (concat_read_packet env fuel cat).events →
      i = cat.cur_file + 1) ∧
    (concat_read_packet env fuel cat).cat.cur_file = cat.cur_file := by
  obtain ⟨h1, h2, h3, h4, h5, h6, h7⟩ :=
    readLoop_persistent_fail env e he fuel 0 cat r hav hreads hcur henv
      (by omega) (by omega)
  have hmain : concat_read_packet env fuel cat =
      ⟨(readLoop env fuel cat 0).ret, (readLoop env fuel cat 0).pkt,
       (readLoop env fuel cat 0).cat, (readLoop env fuel cat 0).events⟩ := by
    unfold concat_read_packet
    rw [if_neg (by simp [herr])]
    dsimp only
    rw [if_pos (by rw [h1]; decide)]
  rw [hmain]
  exact ⟨h7, h5⟩

/-- C10 witness: all four open attempts of the exhausting read on the
concrete table target index 1, and the active index stays 0. -/
theorem C10_same_successor_retried_witness :
    (∀ i, Event.openAttempt i ∈
        (concat_read_packet envFail 20 catTwoFiles).events → i = 1) ∧
    (concat_read_packet envFail 20 catTwoFiles).cat.cur_file = 0 := by
  have h := C10_same_successor_retried envFail (-5) 20 catTwoFiles
    readerEmpty rfl rfl (by decide) rfl (by decide) rfl (by decide)
  exact ⟨h.1, h.2⟩

/-- C6: a packet delivered by read_next_packet carries pts and dts equal
to the reader's original values plus
delta = av_rescale_q(cur_file.start_time - reader.start_time,
AV_TIME_BASE_Q, stream time base of the packet); a timestamp equal to
AV_NOPTS_VALUE is passed through unchanged. -/
theorem C6_timestamp_offset (env : Nat → Except Int Reader) (fuel : Nat)
    (cat : ConcatContext) (r : Reader) (p : Packet)
    (rest : List (Except Int Packet))
    (hfuel : 1 ≤ fuel) (herr : cat.error = 0)
    (hav : cat.avf = some r) (hreads : r.reads = Except.ok p :: rest) :
    (concat_read_packet env fuel cat).ret = 0 ∧
    (concat_read_packet env fuel cat).pkt = some
      { p with
        pts := if p.pts ≠ AV_NOPTS_VALUE then
                 p.pts + av_rescale_q (cat.curFile.start_time - r.start_time)
                   AV_TIME_BASE_Q (streamTb r p.stream_index)
               else p.pts,
        dts := if p.dts ≠ AV_NOPTS_VALUE then
                 p.dts + av_rescale_q (cat.curFile.start_time - r.start_time)
                   AV_TIME_BASE_Q (streamTb r p.stream_index)
               else p.dts } := by
  obtain ⟨f, rfl⟩ : ∃ f, fuel = f + 1 := ⟨fuel - 1, by omega⟩
  have hread : av_read_frame r = (0, some p, { r with reads := rest }) := by
    unfold av_read_frame
    rw [hreads]
  have hloop : readLoop env (f + 1) cat 0 =
      ⟨0, some p, { cat with avf := some { r with reads := rest } },
       [Event.readAttempt r.id]⟩ := by
    unfold readLoop
    rw [hav]
    dsimp only
    rw [hread]
    dsimp only
    rw [if_pos (by decide : (0 : Int) ≠ AVERROR_EOF)]
  unfold concat_read_packet
  rw [if_neg (by simp [herr]), hloop]
  dsimp only
  rw [if_neg (by decide : ¬((0 : Int) < 0))]
  exact ⟨rfl, rfl⟩

/-- C6 witness: one packet with pts 100, segment start 50, reader start 2,
microsecond stream time base: delivered pts is 100 + 48 = 148, and the
unknown dts stays unknown. -/
theorem C6_timestamp_offset_witness :
    catOnePacket.error = 0 ∧
    (concat_read_packet envFail 5 catOnePacket).ret = 0 ∧
    (concat_read_packet envFail 5 catOnePacket).pkt =
      some ⟨148, AV_NOPTS_VALUE, 0⟩ := by
  have h := C6_timestamp_offset envFail 5 catOnePacket readerOnePacket
    ⟨100, AV_NOPTS_VALUE, 0⟩ [] (by decide) rfl rfl rfl
  refine ⟨rfl, h.1, ?_⟩
  rw [h.2]
  decide

/-- C2 counterexample: from a reachable exhausted state (four failed
opens of segment 1 recorded error -5), a seek that is itself rejected
for the non-seekable table (ESPIPE, a failing seek) still resets the
sticky error to 0, contradicting the claim that only a successful seek
clears it. -/
theorem C2_counterexample :
    (concat_read_packet envFail 20 catTwoFiles).cat.error = -5 ∧
    (concat_seek envFail vsMicro
        (concat_read_packet envFail 20 catTwoFiles).cat
        (-1) 0 0 0 0).ret < 0 ∧
    (concat_seek envFail vsMicro
        (concat_read_packet envFail 20 catTwoFiles).cat
        (-1) 0 0 0 0).cat.error = 0 := by
  exact ⟨by decide, by decide, by decide⟩

/-- C2 amended: every concat_seek call — successful or failing, including
ones rejected for a non-seekable table or byte/frame flags — leaves the
sticky error cleared (the reset happens at seek entry), while a read
call never clears it: with a sticky error set, read returns that error
immediately and changes nothing. -/
theorem C2_sticky_error_clearing (env : Nat → Except Int Reader)
    (vs : VirtualStreams) (cat : ConcatContext) (stream : Int)
    (mn ts mx : Int) (flags : Nat) (fuel : Nat) :
    (concat_seek env vs cat stream mn ts mx flags).cat.error = 0 ∧
    (cat.error ≠ 0 →
      concat_read_packet env fuel cat = ⟨cat.error, none, cat, []⟩) := by
  constructor
  · unfold concat_seek
    dsimp only
    split
    · rfl
    · split
      · rfl
      · split
        · simp [real_seek_error_eq]
        · simp [real_seek_error_eq]
  · intro he
    unfold concat_read_packet
    rw [if_pos he]

/-- C4: the header backfill pass on a freshly built table (every
start_time still unset, as add_file leaves it).  When every duration is
explicit: seekable becomes true, start_time 0 is 0, each next start_time
is the previous start_time plus duration, and the total duration is the
sum of all durations.  When some duration is unknown at index k:
seekable stays what it was (false on the real path) and propagation
stops there — every descriptor past index k is untouched. -/
theorem C4_header_backfill (cat : ConcatContext)
    (hstart : ∀ f ∈ cat.files, f.start_time = AV_NOPTS_VALUE) :
    ((∀ f ∈ cat.files, f.duration ≠ AV_NOPTS_VALUE) →
      (header_backfill cat).seekable = true ∧
      (0 < cat.nb_files →
        ((header_backfill cat).fileAt 0).start_time = 0) ∧
      (∀ i, i + 1 < cat.nb_files →
        ((header_backfill cat).fileAt (i + 1)).start_time =
          ((header_backfill cat).fileAt i).start_time +
          ((header_backfill cat).fileAt i).duration) ∧
      (header_backfill cat).duration =
        (cat.files.map ConcatFile.duration).sum) ∧
    (∀ k, k < cat.nb_files → (cat.fileAt k).duration = AV_NOPTS_VALUE →
      (header_backfill cat).seekable = cat.seekable ∧
      (∀ j, k < j → (header_backfill cat).fileAt j = cat.fileAt j)) := by
  constructor
  · intro hd
    obtain ⟨h1, h2, h3, _, h5, h6⟩ := backfillLoop_known cat.files 0 hstart hd
    unfold header_backfill
    dsimp only
    rw [if_pos h1]
    refine ⟨rfl, ?_, ?_, by dsimp only; rw [h2]; ring⟩
    · intro h0
      exact h5 h0
    · intro i hi
      exact h6 i hi
  · intro k hk hdk
    obtain ⟨h1, h2⟩ := backfillLoop_stops cat.files 0 k hk hdk
    unfold header_backfill
    dsimp only
    rw [if_neg (by simp [h1])]
    exact ⟨rfl, fun j hj => h2 j hj⟩

/-- C4 witness: the all-known table gives seekable with chained starts
and total 15; the table with an unknown duration at index 1 keeps
seekable false and leaves index 2 untouched. -/
theorem C4_header_backfill_witness :
    ((header_backfill catBuildKnown).seekable = true ∧
     ((header_backfill catBuildKnown).fileAt 0).start_time = 0 ∧
     (header_backfill catBuildKnown).duration = 15) ∧
    ((header_backfill catBuildUnknown).seekable = false ∧
     (header_backfill catBuildUnknown).fileAt 2 = catBuildUnknown.fileAt 2) := by
  constructor
  · have h := (C4_header_backfill catBuildKnown (by decide)).1 (by decide)
    exact ⟨h.1, h.2.1 (by decide), h.2.2.2⟩
  · have h := (C4_header_backfill catBuildUnknown (by decide)).2 1
      (by decide) (by decide)
    exact ⟨h.1, h.2 2 (by omega)⟩

/-- C2 amended witness: a failing seek on the exhausted state clears the
error; a read on the exhausted state replays it untouched. -/
theorem C2_sticky_error_clearing_witness :
    (concat_seek envFail vsMicro
        (concat_read_packet envFail 20 catTwoFiles).cat
        (-1) 0 0 0 0).cat.error = 0 ∧
    ((concat_read_packet envFail 20 catTwoFiles).cat.error ≠ 0 →
      concat_read_packet envFail 20
          (concat_read_packet envFail 20 catTwoFiles).cat =
        ⟨(concat_read_packet envFail 20 catTwoFiles).cat.error, none,
         (concat_read_packet envFail 20 catTwoFiles).cat, []⟩) := by
  exact ⟨(C2_sticky_error_clearing envFail vsMicro
      (concat_read_packet envFail 20 catTwoFiles).cat (-1) 0 0 0 0 20).1,
    (C2_sticky_error_clearing envFail vsMicro
      (concat_read_packet envFail 20 catTwoFiles).cat (-1) 0 0 0 0 20).2⟩

end Concatdec
